import Mathlib

/-!
Shallow embedding of the audio-transcription front end:
the data model of src/types.ts, the three HTTP client operations of
src/services/assemblyai.ts, and the workflow controller of src/App.tsx
(the handlers handleSubmit, pollTranscript, resetState, handleUrlChange,
handleFileChange, handleCopy, and the poll-tick callback).

Modelling conventions:
  A browser File value is modelled by an opaque string.  HTTP exchanges
  are modelled by an explicit response value passed to each client
  operation; each operation also reports whether a request was issued.
  Thrown JavaScript Error values are modelled as the Except.error case
  carrying the message string.  The asynchronous outcomes that a
  controller event depends on (the upload result, the job-creation
  result, the fetch result of a poll tick) are parameters of the event.
  The browser timer table is modelled inside the state: activeTimers is
  the list of live interval-timer ids, nextTimer the next fresh id;
  window.setInterval allocates a fresh id and clearInterval removes one.
-/

namespace TranscriptApp

/-- Transcript status values from src/types.ts. -/
inductive TranscriptStatus where
  | queued
  | processing
  | completed
  | error
deriving DecidableEq, Repr

/-- The Transcript record from src/types.ts; text is nullable and the
error field is optional. -/
structure Transcript where
  id : String
  audio_url : String
  status : TranscriptStatus
  text : Option String
  error : Option String
deriving DecidableEq, Repr

/-- The Status union of src/App.tsx line 6. -/
inductive Status where
  | idle
  | uploading
  | submitting
  | polling
  | completed
  | error
deriving DecidableEq, Repr

/-- The JavaScript expression o || d for an optional string o: the
fallback d is used when o is absent or the empty string, both falsy. -/
def jsOr (o : Option String) (d : String) : String :=
  match o with
  | some s => if s = "" then d else s
  | none => d

/-- String interpolation of a possibly-undefined JavaScript value: an
absent value prints as the text undefined. -/
def jsShow (o : Option String) : String :=
  match o with
  | some s => s
  | none => "undefined"

/-- An HTTP response as observed by the client code: the ok flag, the
numeric status, the statusText, the error field of the parsed JSON body,
and the success payload of the parsed JSON body. -/
structure HttpResp (α : Type) where
  ok : Bool
  status : Nat
  statusText : String
  errorField : Option String
  data : α
deriving DecidableEq, Repr

/-- uploadFile of src/services/assemblyai.ts lines 5 to 23.  The second
component records whether an HTTP request was issued.  On success the
payload field holds upload_url. -/
def uploadFile (file : String) (apiKey : String) (resp : HttpResp String) :
    Except String String × Bool :=
  if apiKey = "" then
    (Except.error "A chave da API é necessária para o upload.", false)
  else if resp.ok then
    (Except.ok resp.data, true)
  else
    (Except.error ("API Error while uploading: " ++ toString resp.status ++ " "
      ++ resp.statusText ++ " - " ++ jsOr resp.errorField "Unknown upload error"), true)

/-- submitForTranscription of src/services/assemblyai.ts lines 25 to 48. -/
def submitForTranscription (audioUrl : String) (apiKey : String)
    (resp : HttpResp Transcript) : Except String Transcript × Bool :=
  if apiKey = "" then
    (Except.error "A chave da API é necessária para a transcrição.", false)
  else if resp.ok then
    (Except.ok resp.data, true)
  else
    (Except.error ("API Error: " ++ toString resp.status ++ " "
      ++ resp.statusText ++ " - " ++ jsShow resp.errorField), true)

/-- getTranscriptionResult of src/services/assemblyai.ts lines 50 to 66. -/
def getTranscriptionResult (id : String) (apiKey : String)
    (resp : HttpResp Transcript) : Except String Transcript × Bool :=
  if apiKey = "" then
    (Except.error "A chave da API é necessária para obter o resultado.", false)
  else if resp.ok then
    (Except.ok resp.data, true)
  else
    (Except.error ("API Error: " ++ toString resp.status ++ " "
      ++ resp.statusText ++ " - " ++ jsShow resp.errorField), true)

/-- The controller state of src/App.tsx: the React state hooks (apiKey,
audioUrl, selectedFile, transcript, status, error, isCopied), the
pollingIntervalRef, and the modelled browser timer table. -/
structure AppState where
  apiKey : String
  audioUrl : String
  selectedFile : Option String
  transcript : Option Transcript
  status : Status
  error : Option String
  isCopied : Bool
  pollingInterval : Option Nat
  activeTimers : List Nat
  nextTimer : Nat
deriving DecidableEq, Repr

/-- The operations of the Transcription Client, for recording which ones
a controller event invokes. -/
inductive ClientCall where
  | upload
  | createJob
  | fetchJob
deriving DecidableEq, Repr

/-- The in-flight statuses listed in the guard on src/App.tsx line 94. -/
def processingList : List Status := [Status.uploading, Status.submitting, Status.polling]

/-- Clearing the interval held in pollingIntervalRef when present, as in
src/App.tsx lines 47 to 50: the timer is removed from the browser timer
table and the ref is nulled. -/
def clearTimer (s : AppState) : AppState :=
  match s.pollingInterval with
  | some t =>
      { s with pollingInterval := none, activeTimers := s.activeTimers.erase t }
  | none => s

/-- resetState of src/App.tsx lines 37 to 51. -/
def resetState (s : AppState) : AppState :=
  clearTimer { s with
    audioUrl := ""
    selectedFile := none
    transcript := none
    status := Status.idle
    error := none
    isCopied := false }

/-- pollTranscript of src/App.tsx lines 53 to 85, up to scheduling: when
the api key is empty it returns at once; otherwise it clears a previously
scheduled interval if present and schedules a fresh one, storing the new
handle in pollingIntervalRef.  The tick callback itself is modelled by
tickFn. -/
def pollTranscript (s : AppState) (id : String) : AppState :=
  if s.apiKey = "" then s
  else
    let act :=
      match s.pollingInterval with
      | some t => s.activeTimers.erase t
      | none => s.activeTimers
    { s with
      pollingInterval := some s.nextTimer
      activeTimers := s.nextTimer :: act
      nextTimer := s.nextTimer + 1 }

/-- The tail of handleSubmit from src/App.tsx line 108: enter submitting,
run submitForTranscription with outcome cr, then dispatch on the initial
response status.  The catch of the surrounding try block wraps the thrown
message.  The calls argument accumulates client operations already
invoked earlier in the submission. -/
def finishSubmit (s : AppState) (cr : Except String Transcript)
    (calls : List ClientCall) : AppState × List ClientCall :=
  let s1 := { s with status := Status.submitting }
  match cr with
  | Except.error msg =>
      ({ s1 with status := Status.error,
                 error := some ("Falha ao enviar a solicitação: " ++ msg) },
       calls ++ [ClientCall.createJob])
  | Except.ok r =>
      let s2 := { s1 with transcript := some r }
      if r.status = TranscriptStatus.error then
        ({ s2 with status := Status.error,
                   error := some (jsOr r.error "Erro ao submeter o áudio.") },
         calls ++ [ClientCall.createJob])
      else if r.status = TranscriptStatus.queued ∨ r.status = TranscriptStatus.processing then
        (pollTranscript { s2 with status := Status.polling } r.id,
         calls ++ [ClientCall.createJob])
      else
        ({ s2 with transcript := some r, status := Status.completed },
         calls ++ [ClientCall.createJob])

/-- handleSubmit of src/App.tsx lines 87 to 128, parametrised by the
outcome up of uploadFile and the outcome cr of submitForTranscription. -/
def handleSubmit (s : AppState) (up : Except String String)
    (cr : Except String Transcript) : AppState × List ClientCall :=
  if s.apiKey = "" then
    ({ s with status := Status.error,
              error := some "Por favor, insira sua chave da API AssemblyAI para continuar." },
     [])
  else if (s.audioUrl = "" ∧ s.selectedFile = none) ∨ s.status ∈ processingList then
    (s, [])
  else
    let s1 := { s with error := none, transcript := none, isCopied := false }
    match s1.selectedFile with
    | none => finishSubmit s1 cr []
    | some _ =>
        let s2 := { s1 with status := Status.uploading }
        match up with
        | Except.error msg =>
            ({ s2 with status := Status.error,
                       error := some ("Falha ao enviar a solicitação: " ++ msg) },
             [ClientCall.upload])
        | Except.ok _ => finishSubmit s2 cr [ClientCall.upload]

/-- One firing of the interval callback scheduled in src/App.tsx lines
59 to 84, parametrised by the outcome res of getTranscriptionResult.  A
tick only fires while a timer is live in the browser timer table. -/
def tickFn (s : AppState) (res : Except String Transcript) :
    AppState × List ClientCall :=
  if s.activeTimers = [] then (s, [])
  else
    match res with
    | Except.ok r =>
        if r.status = TranscriptStatus.completed ∨ r.status = TranscriptStatus.error then
          let s1 := { clearTimer s with transcript := some r }
          if r.status = TranscriptStatus.completed then
            ({ s1 with status := Status.completed }, [ClientCall.fetchJob])
          else
            ({ s1 with status := Status.error,
                       error := some (jsOr r.error "Falha ao processar a transcrição.") },
             [ClientCall.fetchJob])
        else (s, [ClientCall.fetchJob])
    | Except.error _ =>
        ({ clearTimer s with
             status := Status.error,
             error := some "Não foi possível obter o resultado da transcrição." },
         [ClientCall.fetchJob])

/-- handleUrlChange of src/App.tsx lines 138 to 146: the url field is set
unconditionally and the selected file is cleared only for a truthy value. -/
def handleUrlChange (s : AppState) (v : String) : AppState :=
  { s with
    audioUrl := v
    selectedFile := if v = "" then s.selectedFile else none }

/-- handleFileChange of src/App.tsx lines 148 to 154: the selected file is
set unconditionally and the url is cleared only when a file is present. -/
def handleFileChange (s : AppState) (f : Option String) : AppState :=
  { s with
    selectedFile := f
    audioUrl := if f.isSome then "" else s.audioUrl }

/-- handleCopy of src/App.tsx lines 130 to 136, immediate effect only:
the copied flag is set when the transcript has truthy text.  The delayed
revert of the flag after two seconds uses setTimeout, not the polling
interval, and is not modelled. -/
def handleCopy (s : AppState) : AppState :=
  match s.transcript with
  | some tr =>
      match tr.text with
      | some t => if t = "" then s else { s with isCopied := true }
      | none => s
  | none => s

/-- User and environment events driving the controller. -/
inductive Ev where
  | setApiKey (k : String)
  | urlChange (v : String)
  | fileChange (f : Option String)
  | submit (up : Except String String) (cr : Except String Transcript)
  | tick (res : Except String Transcript)
  | reset
  | copy
deriving Repr

/-- One controller step together with the list of Transcription Client
operations it invokes. -/
def stepT (s : AppState) : Ev → AppState × List ClientCall
  | Ev.setApiKey k => ({ s with apiKey := k }, [])
  | Ev.urlChange v => (handleUrlChange s v, [])
  | Ev.fileChange f => (handleFileChange s f, [])
  | Ev.submit up cr => handleSubmit s up cr
  | Ev.tick res => tickFn s res
  | Ev.reset => (resetState s, [])
  | Ev.copy => (handleCopy s, [])

/-- One controller step, state part. -/
def step (s : AppState) (e : Ev) : AppState := (stepT s e).1

/-- The initial state: the api key seeded from local storage, everything
else empty, no timer scheduled. -/
def initState (k : String) : AppState :=
  ⟨k, "", none, none, Status.idle, none, false, none, [], 0⟩

/-- Running a sequence of events from a state. -/
def run (s : AppState) (evs : List Ev) : AppState := evs.foldl step s

/-- The timer-table invariant: the live interval timers are exactly the
one held in pollingIntervalRef, if any. -/
def timersInv (s : AppState) : Prop :=
  s.activeTimers = s.pollingInterval.toList

/-- Renaming every timer id upward by a constant offset.  Only the timer
bookkeeping changes; all user-visible fields are untouched. -/
def shiftState (d : Nat) (s : AppState) : AppState :=
  { s with
    pollingInterval := s.pollingInterval.map (fun t => t + d)
    activeTimers := s.activeTimers.map (fun t => t + d)
    nextTimer := s.nextTimer + d }

/-- The user-visible observables of a controller state: everything the
presentation layer consumes, plus whether a poll timer is outstanding;
the concrete timer id and the id counter are not observable. -/
def obs (s : AppState) :
    String × String × Option String × Option Transcript × Status × Option String × Bool × Bool :=
  (s.apiKey, s.audioUrl, s.selectedFile, s.transcript, s.status, s.error,
   s.isCopied, s.pollingInterval.isSome)

/-- The mutual-exclusivity invariant for the two source inputs: never are
a url and a file populated at the same time. -/
def sourceInv (s : AppState) : Prop :=
  s.audioUrl = "" ∨ s.selectedFile = none

/-- A job representation still queued, as returned by a fresh creation. -/
def jobQueued : Transcript :=
  ⟨"t1", "https://x/a.mp3", TranscriptStatus.queued, none, none⟩

/-- A completed job representation carrying a result text. -/
def jobDone : Transcript :=
  ⟨"t1", "https://x/a.mp3", TranscriptStatus.completed, some "hello", none⟩

/-- A failed job whose error field is the empty string. -/
def jobErrEmpty : Transcript :=
  ⟨"t1", "https://x/a.mp3", TranscriptStatus.error, none, some ""⟩

/-- A failed job carrying a nonempty error message. -/
def jobErrBoom : Transcript :=
  ⟨"t1", "https://x/a.mp3", TranscriptStatus.error, none, some "boom"⟩

/-- A concrete polling-state controller with one live timer. -/
def sPoll : AppState :=
  ⟨"k1", "https://x/a.mp3", none, some jobQueued, Status.polling, none, false,
   some 0, [0], 1⟩

/-- A concrete idle controller with a key and a url entered. -/
def sIdle : AppState :=
  ⟨"k1", "https://x/a.mp3", none, none, Status.idle, none, false, none, [], 0⟩

/-- The polling state reached from the initial state by entering a key,
typing a url and submitting a job that the service queues. -/
def reachPolling : AppState :=
  run (initState "") [Ev.setApiKey "k1", Ev.urlChange "https://x/a.mp3",
    Ev.submit (Except.ok "unused") (Except.ok jobQueued)]

/-- The state reached from reachPolling when the user empties the api-key
field while the poll timer is still live. -/
def pollingNoKey : AppState := step reachPolling (Ev.setApiKey "")

/-- The thrown message of a fetch that failed with HTTP status 500 and
server message boom. -/
def fetchErrMsg : String := "API Error: 500 Internal Server Error - boom"

/-- A concrete failing HTTP exchange for the job-status fetch. -/
def resp500 : HttpResp Transcript :=
  ⟨false, 500, "Internal Server Error", some "boom", jobQueued⟩

/-- A concrete completed state with a published transcript and the
copied flag set. -/
def sDone : AppState :=
  ⟨"k1", "https://x/a.mp3", none, some jobDone, Status.completed, none, true,
   none, [], 3⟩

/-- A concrete retry: type a new url and submit a job that gets queued. -/
def retryEvs : List Ev :=
  [Ev.urlChange "https://y/b.mp3", Ev.submit (Except.ok "u") (Except.ok jobQueued)]


theorem timersInv_initState (k : String) : timersInv (initState k) := by
  simp [timersInv, initState]

theorem clearTimer_clears (s : AppState) (h : timersInv s) :
    (clearTimer s).pollingInterval = none ∧ (clearTimer s).activeTimers = [] := by
  unfold timersInv at h
  cases hp : s.pollingInterval with
  | none =>
      simp [hp] at h
      simp [clearTimer, hp, h]
  | some t =>
      simp [hp] at h
      simp [clearTimer, hp, h]

theorem timersInv_clearTimer (s : AppState) (h : timersInv s) :
    timersInv (clearTimer s) := by
  have hc := clearTimer_clears s h
  unfold timersInv
  rw [hc.1, hc.2]
  rfl

theorem timersInv_pollTranscript (s : AppState) (i : String) (h : timersInv s) :
    timersInv (pollTranscript s i) := by
  unfold timersInv at h ⊢
  unfold pollTranscript
  split
  · exact h
  · cases hp : s.pollingInterval with
    | none =>
        simp [hp] at h
        simp [hp, h]
    | some t =>
        simp [hp] at h
        simp [hp, h]

theorem timersInv_finishSubmit (s : AppState) (cr : Except String Transcript)
    (calls : List ClientCall) (h : timersInv s) :
    timersInv (finishSubmit s cr calls).1 := by
  unfold timersInv at h
  unfold finishSubmit
  cases cr with
  | error msg => simpa [timersInv] using h
  | ok r =>
      by_cases he : r.status = TranscriptStatus.error
      · simpa [he, timersInv] using h
      · by_cases hq : r.status = TranscriptStatus.queued ∨ r.status = TranscriptStatus.processing
        · simp [he, hq]
          exact timersInv_pollTranscript _ _ (by simpa [timersInv] using h)
        · simpa [he, hq, timersInv] using h

theorem timersInv_handleSubmit (s : AppState) (up : Except String String)
    (cr : Except String Transcript) (h : timersInv s) :
    timersInv (handleSubmit s up cr).1 := by
  unfold handleSubmit
  split
  · simpa [timersInv] using h
  · split
    · exact h
    · cases hf : s.selectedFile with
      | none =>
          simp [hf]
          exact timersInv_finishSubmit _ _ _ (by simpa [timersInv] using h)
      | some f =>
          cases up with
          | error msg => simpa [hf, timersInv] using h
          | ok u =>
              simp [hf]
              exact timersInv_finishSubmit _ _ _ (by simpa [timersInv] using h)

theorem timersInv_tickFn (s : AppState) (res : Except String Transcript)
    (h : timersInv s) : timersInv (tickFn s res).1 := by
  have hc := clearTimer_clears s h
  unfold tickFn
  split
  · exact h
  · cases res with
    | error msg =>
        simp [timersInv, hc.1, hc.2]
    | ok r =>
        by_cases ht : r.status = TranscriptStatus.completed ∨ r.status = TranscriptStatus.error
        · by_cases hcmp : r.status = TranscriptStatus.completed
          · simp [ht, hcmp, timersInv, hc.1, hc.2]
          · have herr : r.status = TranscriptStatus.error := ht.resolve_left hcmp
            simp [ht, hcmp, herr, timersInv, hc.1, hc.2]
        · simpa [ht] using h

theorem timersInv_resetState (s : AppState) (h : timersInv s) :
    timersInv (resetState s) := by
  unfold resetState
  exact timersInv_clearTimer _ (by simpa [timersInv] using h)

theorem handleCopy_timers (s : AppState) :
    (handleCopy s).activeTimers = s.activeTimers ∧
    (handleCopy s).pollingInterval = s.pollingInterval := by
  unfold handleCopy
  split <;> (try split) <;> (try split) <;> simp

theorem timersInv_step (s : AppState) (e : Ev) (h : timersInv s) :
    timersInv (step s e) := by
  cases e with
  | setApiKey k => simpa [step, stepT, timersInv] using h
  | urlChange v => simpa [step, stepT, handleUrlChange, timersInv] using h
  | fileChange f => simpa [step, stepT, handleFileChange, timersInv] using h
  | submit up cr => exact timersInv_handleSubmit s up cr h
  | tick res => exact timersInv_tickFn s res h
  | reset => exact timersInv_resetState s h
  | copy =>
      have hc := handleCopy_timers s
      unfold timersInv at h ⊢
      simp [step, stepT, hc.1, hc.2]
      exact h

theorem timersInv_run (s : AppState) (evs : List Ev) (h : timersInv s) :
    timersInv (run s evs) := by
  induction evs generalizing s with
  | nil => exact h
  | cons e tl ih => exact ih (step s e) (timersInv_step s e h)

theorem addShift_injective (d : Nat) : Function.Injective (fun t : Nat => t + d) :=
  fun a b h => Nat.add_right_cancel h

theorem clearTimer_shift (d : Nat) (s : AppState) :
    clearTimer (shiftState d s) = shiftState d (clearTimer s) := by
  cases hp : s.pollingInterval with
  | none => simp [clearTimer, shiftState, hp]
  | some t =>
      simp [clearTimer, shiftState, hp, List.map_erase (addShift_injective d)]

theorem pollTranscript_shift (d : Nat) (s : AppState) (i : String) :
    pollTranscript (shiftState d s) i = shiftState d (pollTranscript s i) := by
  unfold pollTranscript
  by_cases hk : s.apiKey = ""
  · simp [shiftState, hk]
  · cases hp : s.pollingInterval with
    | none =>
        simp [shiftState, hk, hp]
        omega
    | some t =>
        simp [shiftState, hk, hp, List.map_erase (addShift_injective d)]
        omega

theorem finishSubmit_shift (d : Nat) (s : AppState) (cr : Except String Transcript)
    (calls : List ClientCall) :
    finishSubmit (shiftState d s) cr calls =
      (shiftState d (finishSubmit s cr calls).1, (finishSubmit s cr calls).2) := by
  unfold finishSubmit
  cases cr with
  | error msg => simp [shiftState]
  | ok r =>
      by_cases he : r.status = TranscriptStatus.error
      · simp [he, shiftState]
      · by_cases hq : r.status = TranscriptStatus.queued ∨ r.status = TranscriptStatus.processing
        · simp [he, hq, pollTranscript, shiftState]
          by_cases hk : s.apiKey = ""
          · simp [hk]
          · cases hp : s.pollingInterval with
            | none =>
                simp [hk, hp]
                omega
            | some t =>
                simp [hk, hp, List.map_erase (addShift_injective d)]
                omega
        · simp [he, hq, shiftState]

theorem handleSubmit_shift (d : Nat) (s : AppState) (up : Except String String)
    (cr : Except String Transcript) :
    handleSubmit (shiftState d s) up cr =
      (shiftState d (handleSubmit s up cr).1, (handleSubmit s up cr).2) := by
  unfold handleSubmit
  by_cases hk : s.apiKey = ""
  · simp [shiftState, hk]
  · by_cases hg : (s.audioUrl = "" ∧ s.selectedFile = none) ∨ s.status ∈ processingList
    · simp [shiftState, hk, hg]
    · have hs : ¬ s.status ∈ processingList := fun hm => hg (Or.inr hm)
      have hu : ¬ (s.audioUrl = "" ∧ s.selectedFile = none) := fun hm => hg (Or.inl hm)
      cases hf : s.selectedFile with
      | none =>
          have hurl : ¬ s.audioUrl = "" := fun hm => hu ⟨hm, hf⟩
          have := finishSubmit_shift d
            { s with error := none, transcript := none, isCopied := false } cr []
          simp [shiftState, hk, hf, hs, hurl] at this ⊢
          exact this
      | some f =>
          cases up with
          | error msg => simp [shiftState, hk, hf, hs]
          | ok u =>
              have := finishSubmit_shift d
                { s with error := none, transcript := none, isCopied := false,
                         status := Status.uploading } cr [ClientCall.upload]
              simp [shiftState, hk, hf, hs] at this ⊢
              exact this

theorem tickFn_shift (d : Nat) (s : AppState) (res : Except String Transcript) :
    tickFn (shiftState d s) res =
      (shiftState d (tickFn s res).1, (tickFn s res).2) := by
  unfold tickFn
  by_cases hz : s.activeTimers = []
  · simp [shiftState, hz]
  · have hz2 : ¬ (shiftState d s).activeTimers = [] := by
      simp [shiftState, hz]
    cases res with
    | error msg =>
        simp [hz, hz2, clearTimer_shift, shiftState, clearTimer]
        cases hp : s.pollingInterval with
        | none => simp [hp]
        | some t => simp [hp, List.map_erase (addShift_injective d)]
    | ok r =>
        by_cases ht : r.status = TranscriptStatus.completed ∨ r.status = TranscriptStatus.error
        · by_cases hcmp : r.status = TranscriptStatus.completed
          · simp [hz, hz2, ht, hcmp, shiftState, clearTimer]
            cases hp : s.pollingInterval with
            | none => simp [hp]
            | some t => simp [hp, List.map_erase (addShift_injective d)]
          · have herr : r.status = TranscriptStatus.error := ht.resolve_left hcmp
            simp [hz, hz2, ht, hcmp, herr, shiftState, clearTimer]
            cases hp : s.pollingInterval with
            | none => simp [hp]
            | some t => simp [hp, List.map_erase (addShift_injective d)]
        · simp [hz, hz2, ht, shiftState]

theorem stepT_shift (d : Nat) (s : AppState) (e : Ev) :
    stepT (shiftState d s) e = (shiftState d (step s e), (stepT s e).2) := by
  cases e with
  | setApiKey k => simp [stepT, step, shiftState]
  | urlChange v => simp [stepT, step, handleUrlChange, shiftState]
  | fileChange f => simp [stepT, step, handleFileChange, shiftState]
  | submit up cr => simpa [stepT, step] using handleSubmit_shift d s up cr
  | tick res => simpa [stepT, step] using tickFn_shift d s res
  | reset =>
      have : resetState (shiftState d s) = shiftState d (resetState s) := by
        unfold resetState
        have := clearTimer_shift d { s with
          audioUrl := "", selectedFile := none, transcript := none,
          status := Status.idle, error := none, isCopied := false }
        simpa [shiftState] using this
      simp [stepT, step, this]
  | copy =>
      have : handleCopy (shiftState d s) = shiftState d (handleCopy s) := by
        unfold handleCopy
        cases htr : s.transcript with
        | none => simp [shiftState, htr]
        | some tr =>
            cases htx : tr.text with
            | none => simp [shiftState, htr, htx]
            | some t =>
                by_cases hte : t = "" <;> simp [shiftState, htr, htx, hte]
      simp [stepT, step, this]

theorem step_shift (d : Nat) (s : AppState) (e : Ev) :
    step (shiftState d s) e = shiftState d (step s e) := by
  unfold step
  rw [stepT_shift]
  rfl

theorem run_shift (d : Nat) (s : AppState) (evs : List Ev) :
    run (shiftState d s) evs = shiftState d (run s evs) := by
  induction evs generalizing s with
  | nil => rfl
  | cons e tl ih =>
      show run (step (shiftState d s) e) tl = _
      rw [step_shift]
      exact ih (step s e)

theorem obs_shift (d : Nat) (s : AppState) : obs (shiftState d s) = obs s := by
  simp [obs, shiftState]

theorem resetState_eq_shift (s : AppState) (h : timersInv s) :
    resetState s = shiftState s.nextTimer (initState s.apiKey) := by
  unfold timersInv at h
  cases hp : s.pollingInterval with
  | none =>
      simp [hp] at h
      simp [resetState, clearTimer, shiftState, initState, hp, h]
  | some t =>
      simp [hp] at h
      simp [resetState, clearTimer, shiftState, initState, hp, h]

theorem finishSubmit_source (s : AppState) (cr : Except String Transcript)
    (calls : List ClientCall) :
    (finishSubmit s cr calls).1.audioUrl = s.audioUrl ∧
    (finishSubmit s cr calls).1.selectedFile = s.selectedFile := by
  unfold finishSubmit
  cases cr with
  | error msg => exact ⟨rfl, rfl⟩
  | ok r =>
      by_cases he : r.status = TranscriptStatus.error
      · simp [he]
      · by_cases hq : r.status = TranscriptStatus.queued ∨ r.status = TranscriptStatus.processing
        · simp [he, hq, pollTranscript]
          split <;> simp
        · simp [he, hq]

theorem handleSubmit_source (s : AppState) (up : Except String String)
    (cr : Except String Transcript) :
    (handleSubmit s up cr).1.audioUrl = s.audioUrl ∧
    (handleSubmit s up cr).1.selectedFile = s.selectedFile := by
  unfold handleSubmit
  by_cases hk : s.apiKey = ""
  · simp [hk]
  · by_cases hg : (s.audioUrl = "" ∧ s.selectedFile = none) ∨ s.status ∈ processingList
    · simp [hk, hg]
    · have hs : ¬ s.status ∈ processingList := fun hm => hg (Or.inr hm)
      have hu : ¬ (s.audioUrl = "" ∧ s.selectedFile = none) := fun hm => hg (Or.inl hm)
      cases hf : s.selectedFile with
      | none =>
          have hurl : ¬ s.audioUrl = "" := fun hm => hu ⟨hm, hf⟩
          have := finishSubmit_source
            { s with error := none, transcript := none, isCopied := false } cr []
          simp [hk, hf, hs, hurl] at this ⊢
          exact this
      | some f =>
          cases up with
          | error msg => simp [hk, hf, hs]
          | ok u =>
              have := finishSubmit_source
                { s with error := none, transcript := none, isCopied := false,
                         status := Status.uploading } cr [ClientCall.upload]
              simp [hk, hf, hs] at this ⊢
              exact this

theorem tickFn_source (s : AppState) (res : Except String Transcript) :
    (tickFn s res).1.audioUrl = s.audioUrl ∧
    (tickFn s res).1.selectedFile = s.selectedFile := by
  unfold tickFn clearTimer
  (repeat' split) <;> exact ⟨rfl, rfl⟩

theorem handleCopy_source (s : AppState) :
    (handleCopy s).audioUrl = s.audioUrl ∧
    (handleCopy s).selectedFile = s.selectedFile := by
  unfold handleCopy
  (repeat' split) <;> exact ⟨rfl, rfl⟩

theorem sourceInv_step (s : AppState) (e : Ev) (h : sourceInv s) :
    sourceInv (step s e) := by
  cases e with
  | setApiKey k => exact h
  | urlChange v =>
      by_cases hv : v = ""
      · exact Or.inl (by simp [step, stepT, handleUrlChange, hv])
      · exact Or.inr (by simp [step, stepT, handleUrlChange, hv])
  | fileChange f =>
      cases f with
      | none => exact Or.inr (by simp [step, stepT, handleFileChange])
      | some g => exact Or.inl (by simp [step, stepT, handleFileChange])
  | submit up cr =>
      have hs := handleSubmit_source s up cr
      unfold sourceInv at h ⊢
      rw [show step s (Ev.submit up cr) = (handleSubmit s up cr).1 from rfl, hs.1, hs.2]
      exact h
  | tick res =>
      have hs := tickFn_source s res
      unfold sourceInv at h ⊢
      rw [show step s (Ev.tick res) = (tickFn s res).1 from rfl, hs.1, hs.2]
      exact h
  | reset =>
      exact Or.inl (by simp [step, stepT, resetState, clearTimer]; split <;> simp)
  | copy =>
      have hs := handleCopy_source s
      unfold sourceInv at h ⊢
      rw [show step s Ev.copy = handleCopy s from rfl, hs.1, hs.2]
      exact h

theorem sourceInv_run (s : AppState) (evs : List Ev) (h : sourceInv s) :
    sourceInv (run s evs) := by
  induction evs generalizing s with
  | nil => exact h
  | cons e tl ih => exact ih (step s e) (sourceInv_step s e h)

/-- C1: over every sequence of user actions and poll ticks from the
initial state, at most one poll timer is live in the browser timer table,
and the live timer is exactly the one held in pollingIntervalRef, so
entering polling or resetting can never leave a second timer running. -/
theorem C1_at_most_one_poll_timer (k : String) (evs : List Ev) :
    ((run (initState k) evs).activeTimers).length ≤ 1 ∧
    (run (initState k) evs).activeTimers =
      ((run (initState k) evs).pollingInterval).toList := by
  have h := timersInv_run (initState k) evs (timersInv_initState k)
  unfold timersInv at h
  refine ⟨?_, h⟩
  rw [h]
  cases (run (initState k) evs).pollingInterval <;> simp

/-- C2: the source url and the selected file are mutually exclusive after
every state update from the initial state; moreover setting a nonempty
url clears a previously selected file, and selecting a file clears a
previously set url. -/
theorem C2_sources_mutually_exclusive :
    (∀ k evs, (run (initState k) evs).audioUrl = ""
        ∨ (run (initState k) evs).selectedFile = none)
    ∧ (∀ s v, v ≠ "" → (handleUrlChange s v).selectedFile = none)
    ∧ (∀ s f, (handleFileChange s (some f)).audioUrl = "") := by
  refine ⟨?_, ?_, ?_⟩
  · intro k evs
    exact sourceInv_run (initState k) evs (Or.inl rfl)
  · intro s v hv
    simp [handleUrlChange, hv]
  · intro s f
    simp [handleFileChange]

/-- C2 witness: instantiating the clearing clauses at concrete inputs. -/
theorem C2_sources_mutually_exclusive_w :
    (handleUrlChange sPoll "https://y/b.mp3").selectedFile = none ∧
    (handleFileChange sPoll (some "clip.mp3")).audioUrl = "" :=
  ⟨C2_sources_mutually_exclusive.2.1 sPoll "https://y/b.mp3" (by decide),
   C2_sources_mutually_exclusive.2.2 sPoll "clip.mp3"⟩

/-- C3: a submission with an empty credential moves the controller to the
error state, surfacing the authentication-required message, invokes no
client operation, and changes nothing else. -/
theorem C3_submit_empty_credential (s : AppState) (up : Except String String)
    (cr : Except String Transcript) (h : s.apiKey = "") :
    stepT s (Ev.submit up cr) =
      ({ s with status := Status.error,
                error := some "Por favor, insira sua chave da API AssemblyAI para continuar." },
       []) := by
  simp [stepT, handleSubmit, h]

/-- C3 witness: an empty-credential submission from the initial state. -/
theorem C3_submit_empty_credential_w :
    stepT (initState "") (Ev.submit (Except.ok "u") (Except.ok jobQueued)) =
      (⟨"", "", none, none, Status.error,
        some "Por favor, insira sua chave da API AssemblyAI para continuar.",
        false, none, [], 0⟩,
       []) :=
  C3_submit_empty_credential (initState "") (Except.ok "u") (Except.ok jobQueued) rfl

/-- C4: when the creation response already carries status completed, the
submission ends in the completed state with the job published, and no
poll timer is scheduled: the timer handle, the timer table and the timer
counter are untouched. -/
theorem C4_creation_already_completed (s : AppState) (up : Except String String)
    (u : String) (j : Transcript) (hk : s.apiKey ≠ "")
    (hs : s.status ∉ processingList)
    (hsrc : s.audioUrl ≠ "" ∨ s.selectedFile ≠ none)
    (hup : s.selectedFile ≠ none → up = Except.ok u)
    (hj : j.status = TranscriptStatus.completed) :
    (stepT s (Ev.submit up (Except.ok j))).1.status = Status.completed ∧
    (stepT s (Ev.submit up (Except.ok j))).1.transcript = some j ∧
    (stepT s (Ev.submit up (Except.ok j))).1.pollingInterval = s.pollingInterval ∧
    (stepT s (Ev.submit up (Except.ok j))).1.activeTimers = s.activeTimers ∧
    (stepT s (Ev.submit up (Except.ok j))).1.nextTimer = s.nextTimer := by
  have hje : ¬ j.status = TranscriptStatus.error := by
    rw [hj]
    intro hc
    cases hc
  have hjq : ¬ (j.status = TranscriptStatus.queued ∨ j.status = TranscriptStatus.processing) := by
    rw [hj]
    rintro (hc | hc) <;> cases hc
  cases hf : s.selectedFile with
  | none =>
      have hurl : ¬ s.audioUrl = "" := by
        rcases hsrc with h | h
        · exact h
        · exact absurd hf h
      simp [stepT, handleSubmit, finishSubmit, hk, hf, hs, hurl, hje, hjq]
  | some f =>
      have : up = Except.ok u := hup (by simp [hf])
      subst this
      simp [stepT, handleSubmit, finishSubmit, hk, hf, hs, hje, hjq]

/-- C4 witness: a url-only submission whose creation response is already
completed, from a concrete idle state. -/
theorem C4_creation_already_completed_w :
    (stepT sIdle (Ev.submit (Except.ok "u") (Except.ok jobDone))).1.status = Status.completed ∧
    (stepT sIdle (Ev.submit (Except.ok "u") (Except.ok jobDone))).1.transcript = some jobDone ∧
    (stepT sIdle (Ev.submit (Except.ok "u") (Except.ok jobDone))).1.pollingInterval = sIdle.pollingInterval ∧
    (stepT sIdle (Ev.submit (Except.ok "u") (Except.ok jobDone))).1.activeTimers = sIdle.activeTimers ∧
    (stepT sIdle (Ev.submit (Except.ok "u") (Except.ok jobDone))).1.nextTimer = sIdle.nextTimer :=
  C4_creation_already_completed sIdle (Except.ok "u") "u" jobDone
    (by decide) (by decide) (Or.inl (by decide)) (fun _ => rfl) rfl

/-- C5 counterexample: a poll tick fetches a job whose status is error
and whose error field is the empty string; the surfaced message is the
fixed fallback, not the error message of the job, so the message is not
surfaced verbatim. -/
theorem C5_verbatim_counterexample :
    jobErrEmpty.status = TranscriptStatus.error ∧
    jobErrEmpty.error = some "" ∧
    (stepT sPoll (Ev.tick (Except.ok jobErrEmpty))).1.error
      = some "Falha ao processar a transcrição." ∧
    (stepT sPoll (Ev.tick (Except.ok jobErrEmpty))).1.error ≠ some "" :=
  ⟨rfl, rfl, rfl, by decide⟩

/-- C5 (amended): a poll tick whose fetched job has status error stops
the poll timer, publishes the job, and moves to the error state; the
error message of the job is surfaced verbatim whenever it is present and
nonempty, and otherwise a fixed fallback message is surfaced. -/
theorem C5_poll_error_stops_timer (s : AppState) (r : Transcript)
    (hact : s.activeTimers ≠ []) (hinv : timersInv s)
    (hr : r.status = TranscriptStatus.error) :
    (stepT s (Ev.tick (Except.ok r))).1.pollingInterval = none ∧
    (stepT s (Ev.tick (Except.ok r))).1.activeTimers = [] ∧
    (stepT s (Ev.tick (Except.ok r))).1.status = Status.error ∧
    (stepT s (Ev.tick (Except.ok r))).1.transcript = some r ∧
    (stepT s (Ev.tick (Except.ok r))).1.error
      = some (jsOr r.error "Falha ao processar a transcrição.") ∧
    (∀ m, r.error = some m → m ≠ "" →
      (stepT s (Ev.tick (Except.ok r))).1.error = some m) := by
  have hc := clearTimer_clears s hinv
  have hre : ¬ r.status = TranscriptStatus.completed := by
    rw [hr]
    intro hx
    cases hx
  have hres : stepT s (Ev.tick (Except.ok r)) =
      ({ clearTimer s with
           transcript := some r, status := Status.error,
           error := some (jsOr r.error "Falha ao processar a transcrição.") },
       [ClientCall.fetchJob]) := by
    simp [stepT, tickFn, hact, hr, hre]
  rw [hres]
  refine ⟨by simp [hc.1], by simp [hc.2], by simp, by simp, by simp, ?_⟩
  intro m hm hne
  simp [hm, jsOr, hne]

/-- C5 witness: the amended theorem applied at a concrete polling state
and a job carrying the nonempty error message boom. -/
theorem C5_poll_error_stops_timer_w :
    (stepT sPoll (Ev.tick (Except.ok jobErrBoom))).1.pollingInterval = none ∧
    (stepT sPoll (Ev.tick (Except.ok jobErrBoom))).1.status = Status.error ∧
    (stepT sPoll (Ev.tick (Except.ok jobErrBoom))).1.error = some "boom" :=
  ⟨(C5_poll_error_stops_timer sPoll jobErrBoom (by decide) rfl rfl).1,
   (C5_poll_error_stops_timer sPoll jobErrBoom (by decide) rfl rfl).2.2.1,
   (C5_poll_error_stops_timer sPoll jobErrBoom (by decide) rfl rfl).2.2.2.2.2
     "boom" rfl (by decide)⟩

/-- C6 counterexample: a poll tick on which the fetch fails with HTTP
status 500 and server message boom surfaces the fixed generic message,
not the fetch error: the thrown client error carries the status and the
server message, but the surfaced error is a constant string different
from it. -/
theorem C6_surface_fetch_error_counterexample :
    getTranscriptionResult "t1" "k1" resp500 = (Except.error fetchErrMsg, true) ∧
    (stepT sPoll (Ev.tick (Except.error fetchErrMsg))).1.error
      = some "Não foi possível obter o resultado da transcrição." ∧
    (stepT sPoll (Ev.tick (Except.error fetchErrMsg))).1.error ≠ some fetchErrMsg :=
  ⟨rfl, rfl, by decide⟩

/-- C6 (amended): a poll tick on which the fetch request itself fails
stops the poll timer and moves to the error state, but surfaces a fixed
generic message; the underlying client error, which does carry the HTTP
status and the server-provided message, is not propagated to the surfaced
error. -/
theorem C6_poll_fetch_failure (s : AppState) (m : String)
    (hact : s.activeTimers ≠ []) (hinv : timersInv s) :
    (stepT s (Ev.tick (Except.error m))).1.pollingInterval = none ∧
    (stepT s (Ev.tick (Except.error m))).1.activeTimers = [] ∧
    (stepT s (Ev.tick (Except.error m))).1.status = Status.error ∧
    (stepT s (Ev.tick (Except.error m))).1.error
      = some "Não foi possível obter o resultado da transcrição." ∧
    (∀ i k resp, k ≠ "" → resp.ok = false →
      getTranscriptionResult i k resp =
        (Except.error ("API Error: " ++ toString resp.status ++ " "
          ++ resp.statusText ++ " - " ++ jsShow resp.errorField), true)) := by
  have hc := clearTimer_clears s hinv
  have hres : stepT s (Ev.tick (Except.error m)) =
      ({ clearTimer s with
           status := Status.error,
           error := some "Não foi possível obter o resultado da transcrição." },
       [ClientCall.fetchJob]) := by
    simp [stepT, tickFn, hact]
  rw [hres]
  refine ⟨by simp [hc.1], by simp [hc.2], by simp, by simp, ?_⟩
  intro i k resp hk hok
  simp [getTranscriptionResult, hk, hok]

/-- C6 witness: the amended theorem applied at the concrete polling state
and the concrete failing fetch. -/
theorem C6_poll_fetch_failure_w :
    (stepT sPoll (Ev.tick (Except.error fetchErrMsg))).1.pollingInterval = none ∧
    (stepT sPoll (Ev.tick (Except.error fetchErrMsg))).1.status = Status.error ∧
    getTranscriptionResult "t1" "k1" resp500 = (Except.error fetchErrMsg, true) :=
  ⟨(C6_poll_fetch_failure sPoll fetchErrMsg (by decide) rfl).1,
   (C6_poll_fetch_failure sPoll fetchErrMsg (by decide) rfl).2.2.1,
   (C6_poll_fetch_failure sPoll fetchErrMsg (by decide) rfl).2.2.2.2
     "t1" "k1" resp500 (by decide) rfl⟩

/-- C7: resetting from a terminal state clears the job, the error and the
timer and returns to idle; afterwards, every subsequent event sequence
produces the same observables and the same client calls as the same
sequence run from a fresh initial state with the same credential, so a
subsequent submission behaves identically to a first submission. -/
theorem C7_reset_returns_to_initial (s : AppState)
    (hst : s.status = Status.completed ∨ s.status = Status.error)
    (hinv : timersInv s) :
    (resetState s).transcript = none ∧
    (resetState s).error = none ∧
    (resetState s).pollingInterval = none ∧
    (resetState s).activeTimers = [] ∧
    (resetState s).status = Status.idle ∧
    (∀ evs, obs (run (resetState s) evs) = obs (run (initState s.apiKey) evs)) ∧
    (∀ evs e, (stepT (run (resetState s) evs) e).2
        = (stepT (run (initState s.apiKey) evs) e).2) := by
  have hr := resetState_eq_shift s hinv
  refine ⟨?_, ?_, ?_, ?_, ?_, ?_, ?_⟩
  · rw [hr]; rfl
  · rw [hr]; rfl
  · rw [hr]; rfl
  · rw [hr]; rfl
  · rw [hr]; rfl
  · intro evs
    rw [hr, run_shift, obs_shift]
  · intro evs e
    rw [hr, run_shift, stepT_shift]

/-- C7 witness: resetting a concrete completed state and running a fresh
submission afterwards matches the same submission from the initial
state. -/
theorem C7_reset_returns_to_initial_w :
    (resetState sDone).transcript = none ∧
    (resetState sDone).status = Status.idle ∧
    obs (run (resetState sDone) retryEvs) = obs (run (initState "k1") retryEvs) :=
  ⟨(C7_reset_returns_to_initial sDone (Or.inl rfl) rfl).1,
   (C7_reset_returns_to_initial sDone (Or.inl rfl) rfl).2.2.2.2.1,
   (C7_reset_returns_to_initial sDone (Or.inl rfl) rfl).2.2.2.2.2.1 retryEvs⟩

/-- C8: each client operation called with an empty credential fails at
once with its authentication message and issues no HTTP request; with a
nonempty credential and a non-success response it fails with a message
carrying the numeric HTTP status and the server-provided message; on a
successful upload the server-provided reference url is returned. -/
theorem C8_client_contract :
    (∀ f r, uploadFile f "" r =
        (Except.error "A chave da API é necessária para o upload.", false))
    ∧ (∀ u r, submitForTranscription u "" r =
        (Except.error "A chave da API é necessária para a transcrição.", false))
    ∧ (∀ i r, getTranscriptionResult i "" r =
        (Except.error "A chave da API é necessária para obter o resultado.", false))
    ∧ (∀ f k r, k ≠ "" → r.ok = false → uploadFile f k r =
        (Except.error ("API Error while uploading: " ++ toString r.status ++ " "
          ++ r.statusText ++ " - " ++ jsOr r.errorField "Unknown upload error"), true))
    ∧ (∀ u k r, k ≠ "" → r.ok = false → submitForTranscription u k r =
        (Except.error ("API Error: " ++ toString r.status ++ " "
          ++ r.statusText ++ " - " ++ jsShow r.errorField), true))
    ∧ (∀ i k r, k ≠ "" → r.ok = false → getTranscriptionResult i k r =
        (Except.error ("API Error: " ++ toString r.status ++ " "
          ++ r.statusText ++ " - " ++ jsShow r.errorField), true))
    ∧ (∀ f k r, k ≠ "" → r.ok = true → uploadFile f k r = (Except.ok r.data, true)) := by
  refine ⟨?_, ?_, ?_, ?_, ?_, ?_, ?_⟩
  · intro f r
    simp [uploadFile]
  · intro u r
    simp [submitForTranscription]
  · intro i r
    simp [getTranscriptionResult]
  · intro f k r hk hok
    simp [uploadFile, hk, hok]
  · intro u k r hk hok
    simp [submitForTranscription, hk, hok]
  · intro i k r hk hok
    simp [getTranscriptionResult, hk, hok]
  · intro f k r hk hok
    simp [uploadFile, hk, hok]

/-- C8 witness: concrete instances of the failing and succeeding client
calls, on the 500 exchange and on a successful upload exchange. -/
theorem C8_client_contract_w :
    uploadFile "clip" "k1" ⟨false, 500, "Internal Server Error", some "boom", "u"⟩ =
      (Except.error "API Error while uploading: 500 Internal Server Error - boom", true) ∧
    getTranscriptionResult "t1" "k1" resp500 = (Except.error fetchErrMsg, true) ∧
    uploadFile "clip" "k1" ⟨true, 200, "OK", none, "https://cdn/u1"⟩ =
      (Except.ok "https://cdn/u1", true) :=
  ⟨C8_client_contract.2.2.2.1 "clip" "k1"
      ⟨false, 500, "Internal Server Error", some "boom", "u"⟩ (by decide) rfl,
   C8_client_contract.2.2.2.2.2.1 "t1" "k1" resp500 (by decide) rfl,
   C8_client_contract.2.2.2.2.2.2 "clip" "k1"
      ⟨true, 200, "OK", none, "https://cdn/u1"⟩ (by decide) rfl⟩

/-- C9 counterexample: along a concrete reachable trace, the api key is
emptied while the controller is polling; the next submit finds the
controller in flight, yet it is not a no-op: the status flips from
polling to error because the empty-credential check precedes the
in-flight guard. -/
theorem C9_silent_noop_counterexample :
    pollingNoKey.status = Status.polling ∧
    pollingNoKey.apiKey = "" ∧
    (stepT pollingNoKey (Ev.submit (Except.ok "u") (Except.ok jobQueued))).1.status
      = Status.error ∧
    (stepT pollingNoKey (Ev.submit (Except.ok "u") (Except.ok jobQueued))).1
      ≠ pollingNoKey :=
  ⟨rfl, rfl, rfl, by decide⟩

/-- C9 (amended): with a nonempty credential, a submit issued while a job
is in flight, or while neither a url nor a file is set, is a silent
no-op: the state is returned unchanged and no client operation is
invoked; with an empty credential the submit instead enters the error
state. -/
theorem C9_submit_silent_noop (s : AppState) (up : Except String String)
    (cr : Except String Transcript) (hk : s.apiKey ≠ "")
    (h : s.status ∈ processingList ∨ (s.audioUrl = "" ∧ s.selectedFile = none)) :
    stepT s (Ev.submit up cr) = (s, []) := by
  have hg : (s.audioUrl = "" ∧ s.selectedFile = none) ∨ s.status ∈ processingList :=
    h.symm
  simp [stepT, handleSubmit, hk, hg]

/-- C9 witness: a submit while polling with the credential still present
is a no-op, at the concrete polling state. -/
theorem C9_submit_silent_noop_w :
    stepT sPoll (Ev.submit (Except.ok "u") (Except.ok jobQueued)) = (sPoll, []) :=
  C9_submit_silent_noop sPoll (Except.ok "u") (Except.ok jobQueued)
    (by decide) (Or.inl (by decide))

/-- C10: every reset clears the entered url, the selected file and the
copied flag, along with the transcript, the error, the timer handle and
the status: afterwards no source is populated. -/
theorem C10_reset_clears_inputs (s : AppState) :
    (resetState s).audioUrl = "" ∧
    (resetState s).selectedFile = none ∧
    (resetState s).isCopied = false ∧
    (resetState s).transcript = none ∧
    (resetState s).error = none ∧
    (resetState s).status = Status.idle ∧
    (resetState s).pollingInterval = none := by
  unfold resetState clearTimer
  (repeat' split) <;> simp_all

end TranscriptApp
